/-
Verification of the Enhanced SecretBot ingestion-to-dispatch pipeline.

Shallow embedding of:
  - the `ai` command module (`onStart`, `onReply`, helper methods and its
    in-memory conversation Map),
  - `BotManager.handleMessage` and the stats counters,
  - `DatabaseManager.cacheSet` (Redis mirror write),
  - the `BotManager` lifecycle relevant to `isReady()`,
  - the RateLimiter admission control (modelled from the spec, the
    middleware source file is not in the tree).
-/
import Mathlib

namespace SecretBot

/-! ## Data model -/

/-- Turn role in a conversation (`role ∈ {user, assistant}`). -/
inductive Role where
  | user
  | assistant
  deriving DecidableEq, Repr

/-- One turn of a conversation: `{role, content, timestamp}` as pushed by the
`ai` command onto `conversation.messages`. -/
structure Turn where
  role : Role
  content : String
  timestamp : Nat
  deriving DecidableEq, Repr

/-- The conversation object created by `ai.onStart`:
`{id, userID, threadID, model, systemPrompt, messages, createdAt, lastUsed}`. -/
structure Conversation where
  id : String
  userID : String
  threadID : String
  model : String
  systemPrompt : String
  messages : List Turn
  createdAt : Nat
  lastUsed : Nat
  deriving DecidableEq, Repr

/-- An inbound message event as consumed by the `ai` command:
`event.senderID`, `event.threadID`, `event.messageID`, `event.body`. -/
structure AIEvent where
  senderID : String
  threadID : String
  messageID : String
  body : String
  deriving DecidableEq, Repr

/-- The continuation stored in `global.GoatBot.onReply` by the `ai` command:
`{commandName, messageID, author, conversationId}`. -/
structure ReplyCtx where
  commandName : String
  messageID : String
  author : String
  conversationId : String
  deriving DecidableEq, Repr

/-! ## The in-memory conversation Map (`this.conversations`) -/

/-- Association-list embedding of the JS `Map` keyed by conversation id. -/
abbrev CMap := List (String × Conversation)

/-- `Map.get(k)`. -/
def mapGet (m : CMap) (k : String) : Option Conversation :=
  match m with
  | [] => none
  | (k', v) :: rest => if k' = k then some v else mapGet rest k

/-- `Map.set(k, v)`: replaces an existing binding or appends a new one. -/
def mapSet (m : CMap) (k : String) (v : Conversation) : CMap :=
  match m with
  | [] => [(k, v)]
  | (k', v') :: rest => if k' = k then (k', v) :: rest else (k', v') :: mapSet rest k v

/-- `Map.delete(k)`. -/
def mapDelete (m : CMap) (k : String) : CMap :=
  match m with
  | [] => []
  | (k', v') :: rest => if k' = k then rest else (k', v') :: mapDelete rest k

/-! ## Turn-sequence trimming (`ai` command)

The `ai` command, after pushing a user turn, runs
`if (conversation.messages.length > 20) conversation.messages = conversation.messages.slice(-10);`
`slice(-10)` on a list of length ≥ 10 keeps the last 10 elements. -/

/-- The trim applied after pushing a user turn in `onStart`/`onReply`. -/
def trimMessages (ms : List Turn) : List Turn :=
  if 20 < ms.length then ms.drop (ms.length - 10) else ms

/-! ## JS string primitives

`String.prototype.toLowerCase` and `String.prototype.trim`, embedded as
character-list transformations so they are fully executable. -/

/-- `s.toLowerCase()`. -/
def jsToLower (s : String) : String := ⟨s.data.map Char.toLower⟩

/-- Whitespace characters stripped by `trim`. -/
def isWsChar (c : Char) : Bool :=
  (c == ' ') || (c == '\t') || (c == '\n') || (c == '\r')

/-- `s.trim()`. -/
def jsTrim (s : String) : String :=
  ⟨((s.data.dropWhile isWsChar).reverse.dropWhile isWsChar).reverse⟩

/-! ## Actions emitted by the `ai` command -/

/-- Error kinds distinguished by the `ai` command's catch block
(`error.code` values of the OpenAI client). -/
inductive ErrKind where
  | insufficientQuota
  | rateLimitExceeded
  | invalidApiKey
  | other (msg : String)
  deriving DecidableEq, Repr

/-- Observable actions of the `ai` command handlers, in program order. -/
inductive AIAction where
  | reply (text : String)
  | typing (threadID : String)
  | cacheRead (key : String)
  | cacheWrite (key : String) (ttl : Nat)
  | modelCall (model : String)
  | registerOnReply (author : String) (conversationId : String)
  | logCommand
  | logError
  deriving DecidableEq, Repr

/-! ## User-facing strings of the `ai` command -/

def noApiKeyMsg : String :=
  "⚠️ OpenAI API key not configured. Please contact the administrator."

def promptMsg : String :=
  "🤖 Please provide a message to chat with AI.\n\nExample: ai Hello, how are you?"

def clearedMsg : String := "🧹 Conversation history cleared successfully!"

def notFoundMsg : String :=
  "🤖 Conversation not found. Please start a new conversation with the ai command."

def replyPromptMsg : String :=
  "🤖 Please provide a message to continue the conversation."

def defaultSystemPrompt : String :=
  "You are a helpful, friendly, and knowledgeable AI assistant. Provide clear, concise, and helpful responses."

def genericErrorMsg : String := "❌ An error occurred while processing your request."

def quotaMsg : String := "⚠️ OpenAI API quota exceeded. Please try again later."

def rateLimitMsg : String := "⚠️ Rate limit exceeded. Please wait a moment and try again."

def badKeyMsg : String := "⚠️ Invalid OpenAI API key. Please contact the administrator."

def replyErrorMsg : String := "❌ An error occurred while processing your message."

def availableModelsMsg : String :=
  "🤖 Available models: gpt-4, gpt-3.5-turbo, gpt-3.5, gpt-4-turbo"

def noActiveConvMsg : String :=
  "🤖 No active conversation found. Start a new conversation first."

def sysPromptExampleMsg : String :=
  "🤖 Please provide a system prompt.\n\nExample: ai system You are a helpful coding assistant."

def sysPromptUpdatedMsg : String := "🔧 System prompt updated successfully!"

def helpText : String :=
  "\n🤖 **AI Command Help**\n\n**Basic Usage:**\n• `ai <message>` - Chat with AI\n• Reply to AI messages to continue conversation\n\n**Advanced Features:**\n• `ai clear` - Clear conversation history\n• `ai model <model>` - Switch AI model\n• `ai system <prompt>` - Set system prompt\n• `ai help` - Show this help\n\n**Available Models:**\n• gpt-4 - Most capable model\n• gpt-3.5-turbo - Fast and efficient\n• gpt-4-turbo - Latest GPT-4 model\n\n**Features:**\n✅ Conversation memory\n✅ Context awareness\n✅ Multiple AI models\n✅ Custom system prompts\n✅ Rate limiting protection\n"

/-- Response text sent by `onStart` on a successful model call. -/
def responseText (text : String) : String :=
  "🤖 **AI Response**\n\n" ++ text ++
    "\n\n💬 *Reply to continue the conversation*\n📝 *Type \"ai clear\" to reset*"

/-- Response text sent by `onReply` on a successful model call. -/
def replyResponseText (text : String) : String :=
  "🤖 **AI Response**\n\n" ++ text ++ "\n\n💬 *Reply to continue the conversation*"

/-- The catch block of `onStart`: a generic apology, specialised for
`insufficient_quota`, `rate_limit_exceeded` and `invalid_api_key`. -/
def errorMessageFor : ErrKind → String
  | .insufficientQuota => quotaMsg
  | .rateLimitExceeded => rateLimitMsg
  | .invalidApiKey => badKeyMsg
  | .other _ => genericErrorMsg

/-! ## Helper methods of the `ai` command -/

/-- `this.models[name]` lookup table. -/
def modelsLookup (m : String) : Option String :=
  if m = "gpt-4" then some "gpt-4"
  else if m = "gpt-3.5-turbo" then some "gpt-3.5-turbo"
  else if m = "gpt-3.5" then some "gpt-3.5-turbo"
  else if m = "gpt-4-turbo" then some "gpt-4-turbo-preview"
  else none

/-- `clearConversation(conversationId, message)`. -/
def clearConversation (convs : CMap) (conversationId : String) : CMap × List AIAction :=
  (mapDelete convs conversationId, [.reply clearedMsg])

/-- `switchModel(modelName, conversationId, message)`. -/
def switchModel (modelName : Option String) (convs : CMap) (conversationId : String) :
    CMap × List AIAction :=
  let resolved : Option String :=
    match modelName with
    | none => none
    | some s => if s = "" then none else modelsLookup (jsToLower s)
  match resolved with
  | none => (convs, [.reply availableModelsMsg])
  | some m =>
    match mapGet convs conversationId with
    | some conv =>
        (mapSet convs conversationId { conv with model := m },
         [.reply ("🔧 Model switched to: " ++ m)])
    | none => (convs, [.reply noActiveConvMsg])

/-- `setSystemPrompt(prompt, conversationId, message)`. -/
def setSystemPrompt (prompt : String) (convs : CMap) (conversationId : String) :
    CMap × List AIAction :=
  if prompt = "" then (convs, [.reply sysPromptExampleMsg])
  else
    match mapGet convs conversationId with
    | some conv =>
        (mapSet convs conversationId { conv with systemPrompt := prompt },
         [.reply sysPromptUpdatedMsg])
    | none => (convs, [.reply noActiveConvMsg])

/-- `openaiConfig.openai.model || 'gpt-3.5-turbo'` (JS falsy default). -/
def modelOrDefault (m : Option String) : String :=
  match m with
  | none => "gpt-3.5-turbo"
  | some s => if s = "" then "gpt-3.5-turbo" else s

/-! ## `ai.onStart`

Parameters stand for the collaborators: `apiKey`/`configModel` come from
`configManager.getAIConfig()`, `modelResult` is the outcome of
`openai.chat.completions.create` (an `Except` because the call can reject),
`replySendOk` tells whether the `message.reply` callback received no error
(only then is the onReply continuation registered), and `now` is the wall
clock used for the `Date` fields. The returned map is `this.conversations`
after the call (the conversation object stored in the map is mutated in
place by the JS code), and the action list is the ordered observable
behaviour. -/

/-- The subcommand dispatch at the top of `onStart`:
`if (args[0]) { switch (args[0].toLowerCase()) { ... } }`; `none` means the
switch fell through to the normal chat path. -/
def aiSubcommand (convs : CMap) (conversationId : String) (args : List String) :
    Option (CMap × List AIAction) :=
  match args.head? with
  | none => none
  | some a =>
    if a = "" then none
    else if jsToLower a = "clear" then some (clearConversation convs conversationId)
    else if jsToLower a = "model" then some (switchModel args[1]? convs conversationId)
    else if jsToLower a = "system" then
      some (setSystemPrompt (String.intercalate " " (args.drop 1)) convs conversationId)
    else if jsToLower a = "help" then some (convs, [.reply helpText])
    else none

/-- The chat path of `onStart` after the guards: get-or-create the
conversation, push the user turn, trim, call the model, and on success
push the assistant turn, mirror to the cache, reply and register the
continuation; on failure log and reply with the specialised apology. -/
def aiOnStartMain (configModel : Option String) (convs : CMap) (event : AIEvent)
    (conversationId userInput : String) (now : Nat)
    (modelResult : Except ErrKind String) (replySendOk : Bool) :
    CMap × List AIAction :=
  let conv0 :=
    match mapGet convs conversationId with
    | some c => c
    | none =>
      { id := conversationId, userID := event.senderID, threadID := event.threadID,
        model := modelOrDefault configModel, systemPrompt := defaultSystemPrompt,
        messages := [], createdAt := now, lastUsed := now }
  let msgs1 := trimMessages (conv0.messages ++ [⟨Role.user, userInput, now⟩])
  let conv1 := { conv0 with lastUsed := now, messages := msgs1 }
  let convs1 := mapSet convs conversationId conv1
  match modelResult with
  | .error e =>
      (convs1, [.typing event.threadID, .modelCall conv1.model, .logError,
                .reply (errorMessageFor e)])
  | .ok text =>
      let conv2 := { conv1 with messages := conv1.messages ++ [⟨Role.assistant, text, now⟩] }
      let convs2 := mapSet convs1 conversationId conv2
      (convs2,
       [.typing event.threadID, .modelCall conv1.model,
        .cacheWrite ("ai_conversation_" ++ conversationId) 3600,
        .reply (responseText text)] ++
       (if replySendOk then [.registerOnReply event.senderID conversationId] else []) ++
       [.logCommand])

def aiOnStart (apiKey : Option String) (configModel : Option String) (convs : CMap)
    (event : AIEvent) (args : List String) (now : Nat)
    (modelResult : Except ErrKind String) (replySendOk : Bool) :
    CMap × List AIAction :=
  if apiKey.getD "" = "" then (convs, [.reply noApiKeyMsg])
  else
    let conversationId := event.threadID ++ "_" ++ event.senderID
    match aiSubcommand convs conversationId args with
    | some r => r
    | none =>
      let userInput := jsTrim (String.intercalate " " args)
      if userInput = "" then (convs, [.reply promptMsg])
      else aiOnStartMain configModel convs event conversationId userInput now
             modelResult replySendOk

/-! ## `ai.onReply`

`r` is the continuation object retrieved from `global.GoatBot.onReply`,
`cacheResult` the outcome of `databaseManager.cacheGet` on the mirrored key
(consulted only on an in-memory miss). -/

/-- The conversation lookup of `onReply`: in-memory map first, on a miss
the mirrored cache; the boolean records whether the cache was consulted. -/
def aiLookup (convs : CMap) (conversationId : String)
    (cacheResult : Option Conversation) : Option (Conversation × Bool) :=
  match mapGet convs conversationId with
  | some c => some (c, false)
  | none =>
    match cacheResult with
    | some c => some (c, true)
    | none => none

/-- The continuation path of `onReply` once a conversation is at hand:
push the user turn, trim, call the model; on success push the assistant
turn, mirror to the cache, reply and re-register the continuation; on
failure log and send the generic apology. -/
def aiReplyMain (convs : CMap) (conversationId : String) (event : AIEvent)
    (conv : Conversation) (fromCache : Bool) (userInput : String) (now : Nat)
    (modelResult : Except ErrKind String) (replySendOk : Bool) :
    CMap × List AIAction :=
  let cacheKey := "ai_conversation_" ++ conversationId
  let pre := [AIAction.typing event.threadID] ++
    (if fromCache then [AIAction.cacheRead cacheKey] else [])
  let msgs1 := trimMessages (conv.messages ++ [⟨Role.user, userInput, now⟩])
  let conv1 := { conv with lastUsed := now, messages := msgs1 }
  let convs1 := mapSet convs conversationId conv1
  match modelResult with
  | .error _ =>
      (convs1, pre ++ [.modelCall conv1.model, .logError, .reply replyErrorMsg])
  | .ok text =>
      let conv2 := { conv1 with messages := conv1.messages ++ [⟨Role.assistant, text, now⟩] }
      (mapSet convs1 conversationId conv2,
       pre ++ [.modelCall conv1.model, .cacheWrite cacheKey 3600,
               .reply (replyResponseText text)] ++
       (if replySendOk then [.registerOnReply event.senderID conversationId] else []))

def aiOnReply (convs : CMap) (r : ReplyCtx) (event : AIEvent)
    (cacheResult : Option Conversation) (now : Nat)
    (modelResult : Except ErrKind String) (replySendOk : Bool) :
    CMap × List AIAction :=
  if event.senderID ≠ r.author then (convs, [])
  else
    let userInput := jsTrim event.body
    if userInput = "" then (convs, [.reply replyPromptMsg])
    else if jsToLower userInput = "clear" then clearConversation convs r.conversationId
    else
      match aiLookup convs r.conversationId cacheResult with
      | none => (convs, [.typing event.threadID,
                         .cacheRead ("ai_conversation_" ++ r.conversationId),
                         .reply notFoundMsg])
      | some (conv, fromCache) =>
          aiReplyMain convs r.conversationId event conv fromCache userInput now
            modelResult replySendOk

/-! ## `BotManager.handleMessage` and the aggregate counters -/

/-- `this.stats` of `BotManager` (uptime omitted: derived from the clock). -/
structure Stats where
  messagesProcessed : Nat
  commandsExecuted : Nat
  errors : Nat
  deriving DecidableEq, Repr

/-- Observable effects of one `handleMessage` dispatch, in program order.
`out a` is an action performed by the invoked message handler. -/
inductive BMEffect where
  | securityCheck
  | rateCheck
  | logSecurity
  | logRateLimit
  | invokeHandler
  | logError
  | out (a : AIAction)
  deriving DecidableEq, Repr

/-- `BotManager.handleMessage(message)`. `sec` is the result of
`securityManager.checkMessage`, `rate` of `rateLimiter.checkLimit`;
`hActs` are the actions `messageHandler.handle` performed before
returning or throwing, and `hErr` is `some e` when it threw. The
surrounding try/catch makes the function total: a handler error is caught,
logged and counted, and never re-thrown. -/
def handleMessage (sec rate : Bool) (hActs : List AIAction) (hErr : Option String)
    (st : Stats) : Stats × List BMEffect :=
  let st1 := { st with messagesProcessed := st.messagesProcessed + 1 }
  if !sec then (st1, [.securityCheck, .logSecurity])
  else if !rate then (st1, [.securityCheck, .rateCheck, .logRateLimit])
  else
    match hErr with
    | none => (st1, [.securityCheck, .rateCheck, .invokeHandler] ++ hActs.map .out)
    | some _ =>
        ({ st1 with errors := st1.errors + 1 },
         [.securityCheck, .rateCheck, .invokeHandler] ++ hActs.map .out ++ [.logError])

/-- Effects that are outbound transport calls (send/reply/react/typing). -/
def isOutbound : BMEffect → Bool
  | .out (.reply _) => true
  | .out (.typing _) => true
  | _ => false

/-! ## `DatabaseManager.cacheSet` -/

/-- Log entries emitted by `cacheSet`. -/
inductive DBLog where
  | warnRedisUnavailable
  | logCacheError
  deriving DecidableEq, Repr

/-- `DatabaseManager.cacheSet(key, value, expireSeconds)`. `redis` is `none`
when `this.redis` is null, otherwise it carries the outcome of
`redis.setEx` (which may reject). The result is an `Except` so that "the
operation never throws" is visible: every branch returns `.ok`. -/
def cacheSetE (redis : Option (Except String String)) : Except String Bool × List DBLog :=
  match redis with
  | none => (.ok false, [.warnRedisUnavailable])
  | some (.ok v) => (.ok (v == "OK"), [])
  | some (.error _) => (.ok false, [.logCacheError])

/-! ## `BotManager` lifecycle and `isReady()` -/

/-- The Facebook transport handle; `connected` is what `isConnected()` returns. -/
structure FBApi where
  connected : Bool
  deriving DecidableEq, Repr

/-- The `BotManager` fields that `isReady()` reads. -/
structure BMState where
  isRunning : Bool
  facebookAPI : Option FBApi
  deriving DecidableEq, Repr

/-- A JS value as returned by the `&&` chain in `isReady()`: the chain
yields `false`, `null` (the bare `this.facebookAPI`) or a boolean. -/
inductive JSVal where
  | bool (b : Bool)
  | null
  deriving DecidableEq, Repr

/-- `isReady() { return this.isRunning && this.facebookAPI && this.facebookAPI.isConnected(); }`
with JS short-circuit semantics: the first falsy operand is returned. -/
def isReady (st : BMState) : JSVal :=
  if st.isRunning then
    match st.facebookAPI with
    | none => JSVal.null
    | some api => JSVal.bool api.connected
  else JSVal.bool false

/-- Lifecycle transitions of `BotManager` that touch `isRunning` and
`facebookAPI`: `initOk` is `initialize()` reaching the `facebookAPI`
assignment, `initFail` a failure before it, `startOk` a successful
`start()` (which throws before setting `isRunning` when `facebookAPI` is
null), `startFail` a failed `start()`, `stopBot` is `stop()`, and
`setConnected` a transport connection status change. -/
inductive BMEvent where
  | initOk (api : FBApi)
  | initFail
  | startOk
  | startFail
  | stopBot
  | setConnected (b : Bool)
  deriving DecidableEq, Repr

def bmStep (st : BMState) : BMEvent → BMState
  | .initOk api => { st with facebookAPI := some api }
  | .initFail => st
  | .startOk =>
    match st.facebookAPI with
    | none => st
    | some _ => if st.isRunning then st else { st with isRunning := true }
  | .startFail => st
  | .stopBot => { st with isRunning := false }
  | .setConnected b => { st with facebookAPI := st.facebookAPI.map (fun _ => ⟨b⟩) }

/-- The constructor state: `isRunning = false`, `facebookAPI = null`. -/
def bmInit : BMState := { isRunning := false, facebookAPI := none }

/-- A reachable `BotManager` state: the fold of lifecycle events. -/
def bmRun (es : List BMEvent) : BMState := es.foldl bmStep bmInit

/-! ## RateLimiter (modelled from the spec)

`src/middleware/RateLimiter.js` is not in the source tree; only its call
site `rateLimiter.checkLimit(message.senderID)` in `BotManager` is. -/

/-- Modelled from the spec: the purge step of `RateLimiter.Admit` —
"purge timestamps in the identity's RateWindow older than
`now - windowSize`" (spec §4.1); `src/middleware/RateLimiter.js` is
missing from the tree. A timestamp survives iff `now ≤ t + W`. -/
def rlPurge (W now : Nat) (ts : List Nat) : List Nat :=
  ts.filter (fun t => now ≤ t + W)

/-- Modelled from the spec: one `Admit(identity)` call for a single
identity's RateWindow — purge, then "if the remaining count is
`< maxEvents`, append `now` and return admitted; otherwise return rejected
without mutating state" (spec §4.1). -/
def rlStep (W maxE : Nat) (ts : List Nat) (now : Nat) : Bool × List Nat :=
  let p := rlPurge W now ts
  if p.length < maxE then (true, p ++ [now]) else (false, ts)

/-- Modelled from the spec: a run of `Admit` calls at nondecreasing times
for one identity, returning the list of admitted times. -/
def rlRun (W maxE : Nat) (s : List Nat) : List Nat → List Nat
  | [] => []
  | c :: cs =>
    let r := rlStep W maxE s c
    (if r.1 then [c] else []) ++ rlRun W maxE r.2 cs

/-- `t` lies in the sliding window of width `W` ending at `T`. -/
def inWindow (W T t : Nat) : Bool := decide (T ≤ t + W) && decide (t ≤ T)

/-- Number of timestamps of `l` inside the window of width `W` ending at `T`. -/
def winCount (W T : Nat) (l : List Nat) : Nat := (l.filter (inWindow W T)).length

/-! ## Concrete sample inputs used by counterexamples and witnesses -/

def sampleTurn : Turn := ⟨Role.user, "x", 0⟩

/-- A reachable session state holding 19 turns (lengths 11, 13, …, 19 occur
after a trim; see `claim_C1_counterexample`). -/
def sampleConv19 : Conversation :=
  { id := "t_u", userID := "u", threadID := "t", model := "gpt-4",
    systemPrompt := "s", messages := List.replicate 19 sampleTurn,
    createdAt := 0, lastUsed := 0 }

def sampleEvent : AIEvent :=
  { senderID := "u", threadID := "t", messageID := "m1", body := "hello" }

def sampleReplyCtx : ReplyCtx :=
  { commandName := "ai", messageID := "m0", author := "u", conversationId := "t_u" }

/-- The 21-turn session stored by `onStart` when it is run on
`sampleConv19` with input "hello" and a successful model call. -/
def sampleConv21 : Conversation :=
  { id := "t_u", userID := "u", threadID := "t", model := "gpt-4",
    systemPrompt := "s",
    messages := (List.replicate 19 sampleTurn ++ [⟨Role.user, "hello", 5⟩]) ++
      [⟨Role.assistant, "pong", 5⟩],
    createdAt := 0, lastUsed := 5 }

/-! ## Session-audit predicate used for the turn-cap analysis -/

/-- Every conversation stored after a handler either carries the turn
sequence of some conversation that was already stored, or holds at most
21 turns (20 from the user-turn trim plus one untrimmed assistant turn). -/
def convOk (convs : CMap) (c : Conversation) : Prop :=
  (∃ p, p ∈ convs ∧ (p.2).messages = c.messages) ∨ c.messages.length ≤ 21

theorem mapGet_mapSet_self (m : CMap) (k : String) (v : Conversation) :
    mapGet (mapSet m k v) k = some v := by
  induction m with
  | nil => simp [mapGet, mapSet]
  | cons p rest ih =>
    obtain ⟨k', v'⟩ := p
    by_cases h : k' = k <;> simp [mapGet, mapSet, h, ih]

theorem mapGet_mapSet_ne (m : CMap) (k k' : String) (v : Conversation)
    (h : k' ≠ k) : mapGet (mapSet m k v) k' = mapGet m k' := by
  have hk : ¬ k = k' := fun hh => h hh.symm
  induction m with
  | nil => simp [mapGet, mapSet, hk]
  | cons p rest ih =>
    obtain ⟨k₀, v₀⟩ := p
    by_cases h₀ : k₀ = k
    · subst h₀
      simp [mapGet, mapSet, hk]
    · simp [mapGet, mapSet, h₀, ih]

theorem trimMessages_length_le (ms : List Turn) : (trimMessages ms).length ≤ 20 := by
  unfold trimMessages
  split
  · simp only [List.length_drop]
    omega
  · omega

theorem trimMessages_suffix (ms : List Turn) : trimMessages ms <:+ ms := by
  unfold trimMessages
  split
  · exact List.drop_suffix _ _
  · exact List.suffix_refl _

theorem mapGet_mem (m : CMap) (k : String) (c : Conversation)
    (h : mapGet m k = some c) : (k, c) ∈ m := by
  induction m with
  | nil => simp [mapGet] at h
  | cons p rest ih =>
    obtain ⟨k', v'⟩ := p
    by_cases hk : k' = k
    · subst hk
      simp [mapGet] at h
      simp [h]
    · simp [mapGet, hk] at h
      exact List.mem_cons_of_mem _ (ih h)

theorem mem_mapSet (m : CMap) (k : String) (v : Conversation)
    (x : String × Conversation) (h : x ∈ mapSet m k v) : x = (k, v) ∨ x ∈ m := by
  induction m with
  | nil => simpa [mapSet] using h
  | cons p rest ih =>
    obtain ⟨k', v'⟩ := p
    by_cases hk : k' = k
    · subst hk
      simp [mapSet] at h
      rcases h with h | h
      · exact Or.inl (by simp [h])
      · exact Or.inr (List.mem_cons_of_mem _ h)
    · simp [mapSet, hk] at h
      rcases h with h | h
      · exact Or.inr (by simp [h])
      · rcases ih h with h1 | h1
        · exact Or.inl h1
        · exact Or.inr (List.mem_cons_of_mem _ h1)

theorem mem_mapDelete (m : CMap) (k : String)
    (x : String × Conversation) (h : x ∈ mapDelete m k) : x ∈ m := by
  induction m with
  | nil => simp [mapDelete] at h
  | cons p rest ih =>
    obtain ⟨k', v'⟩ := p
    by_cases hk : k' = k
    · subst hk
      simp [mapDelete] at h
      exact List.mem_cons_of_mem _ h
    · simp [mapDelete, hk] at h
      rcases h with h | h
      · exact List.mem_cons.mpr (Or.inl h)
      · exact List.mem_cons_of_mem _ (ih h)

theorem convOk_of_mapGet (convs : CMap) (k : String) (c : Conversation)
    (h : mapGet convs k = some c) : convOk convs c :=
  Or.inl ⟨(k, c), mapGet_mem _ _ _ h, rfl⟩

theorem convOk_mapDelete (convs : CMap) (cid k : String) (c : Conversation)
    (h : mapGet (mapDelete convs cid) k = some c) : convOk convs c :=
  Or.inl ⟨(k, c), mem_mapDelete _ _ _ (mapGet_mem _ _ _ h), rfl⟩

theorem convOk_mapSet (convs : CMap) (cid k : String) (v c : Conversation)
    (hv : convOk convs v) (h : mapGet (mapSet convs cid v) k = some c) :
    convOk convs c := by
  rcases mem_mapSet _ _ _ _ (mapGet_mem _ _ _ h) with he | hin
  · have hcv : c = v := congrArg Prod.snd he
    rw [hcv]
    exact hv
  · exact Or.inl ⟨(k, c), hin, rfl⟩

theorem convOk_mapSet₂ (convs : CMap) (cid k : String) (v₁ v₂ c : Conversation)
    (hv₁ : convOk convs v₁) (hv₂ : convOk convs v₂)
    (h : mapGet (mapSet (mapSet convs cid v₁) cid v₂) k = some c) :
    convOk convs c := by
  rcases mem_mapSet _ _ _ _ (mapGet_mem _ _ _ h) with he | hin
  · injection he with h1 h2
    rw [h2]
    exact hv₂
  · rcases mem_mapSet _ _ _ _ hin with he2 | hin2
    · injection he2 with h1 h2
      rw [h2]
      exact hv₁
    · exact Or.inl ⟨(k, c), hin2, rfl⟩

theorem trimPlusOne_le (ms : List Turn) (u : Turn) :
    (trimMessages ms ++ [u]).length ≤ 21 := by
  have h := trimMessages_length_le ms
  simp only [List.length_append, List.length_cons, List.length_nil]
  omega

theorem convOk_clearConversation (convs : CMap) (cid k : String) (c : Conversation)
    (h : mapGet (clearConversation convs cid).1 k = some c) : convOk convs c :=
  convOk_mapDelete convs cid k c h

theorem convOk_switchModel (mn : Option String) (convs : CMap) (cid k : String)
    (c : Conversation) (h : mapGet (switchModel mn convs cid).1 k = some c) :
    convOk convs c := by
  unfold switchModel at h
  simp only [] at h
  split at h
  · exact convOk_of_mapGet _ _ _ h
  · split at h
    · next conv heq =>
        refine convOk_mapSet _ _ _ _ _ ?_ h
        exact Or.inl ⟨(cid, conv), mapGet_mem _ _ _ heq, rfl⟩
    · exact convOk_of_mapGet _ _ _ h

theorem convOk_setSystemPrompt (prompt : String) (convs : CMap) (cid k : String)
    (c : Conversation) (h : mapGet (setSystemPrompt prompt convs cid).1 k = some c) :
    convOk convs c := by
  unfold setSystemPrompt at h
  split at h
  · exact convOk_of_mapGet _ _ _ h
  · split at h
    · next conv heq =>
        refine convOk_mapSet _ _ _ _ _ ?_ h
        exact Or.inl ⟨(cid, conv), mapGet_mem _ _ _ heq, rfl⟩
    · exact convOk_of_mapGet _ _ _ h

theorem convOk_aiSubcommand (convs : CMap) (cid : String) (args : List String)
    (res : CMap × List AIAction) (h : aiSubcommand convs cid args = some res)
    (k : String) (c : Conversation) (hg : mapGet res.1 k = some c) :
    convOk convs c := by
  unfold aiSubcommand at h
  split at h
  · simp at h
  · split at h
    · simp at h
    · split at h
      · rw [← Option.some_inj.mp h] at hg
        exact convOk_clearConversation _ _ _ _ hg
      · split at h
        · rw [← Option.some_inj.mp h] at hg
          exact convOk_switchModel _ _ _ _ _ hg
        · split at h
          · rw [← Option.some_inj.mp h] at hg
            exact convOk_setSystemPrompt _ _ _ _ _ hg
          · split at h
            · rw [← Option.some_inj.mp h] at hg
              exact convOk_of_mapGet _ _ _ hg
            · simp at h

theorem convOk_aiOnStartMain (cfg : Option String) (convs : CMap) (ev : AIEvent)
    (cid ui : String) (now : Nat) (mr : Except ErrKind String) (ok : Bool)
    (k : String) (c : Conversation)
    (h : mapGet (aiOnStartMain cfg convs ev cid ui now mr ok).1 k = some c) :
    convOk convs c := by
  unfold aiOnStartMain at h
  simp only [] at h
  cases mr with
  | error e =>
    simp only [] at h
    refine convOk_mapSet _ _ _ _ _ ?_ h
    exact Or.inr (le_trans (trimMessages_length_le _) (by omega))
  | ok text =>
    simp only [] at h
    refine convOk_mapSet₂ _ _ _ _ _ _ ?_ ?_ h
    · exact Or.inr (le_trans (trimMessages_length_le _) (by omega))
    · exact Or.inr (trimPlusOne_le _ _)

theorem convOk_aiOnStart (apiKey cfg : Option String) (convs : CMap) (ev : AIEvent)
    (args : List String) (now : Nat) (mr : Except ErrKind String) (ok : Bool)
    (k : String) (c : Conversation)
    (h : mapGet (aiOnStart apiKey cfg convs ev args now mr ok).1 k = some c) :
    convOk convs c := by
  unfold aiOnStart at h
  simp only [] at h
  split at h
  · exact convOk_of_mapGet _ _ _ h
  · split at h
    · next res hres => exact convOk_aiSubcommand _ _ _ _ hres _ _ h
    · split at h
      · exact convOk_of_mapGet _ _ _ h
      · exact convOk_aiOnStartMain _ _ _ _ _ _ _ _ _ _ h

theorem convOk_aiReplyMain (convs : CMap) (cid : String) (ev : AIEvent)
    (conv : Conversation) (fc : Bool) (ui : String) (now : Nat)
    (mr : Except ErrKind String) (ok : Bool) (k : String) (c : Conversation)
    (h : mapGet (aiReplyMain convs cid ev conv fc ui now mr ok).1 k = some c) :
    convOk convs c := by
  unfold aiReplyMain at h
  simp only [] at h
  cases mr with
  | error e =>
    simp only [] at h
    refine convOk_mapSet _ _ _ _ _ ?_ h
    exact Or.inr (le_trans (trimMessages_length_le _) (by omega))
  | ok text =>
    simp only [] at h
    refine convOk_mapSet₂ _ _ _ _ _ _ ?_ ?_ h
    · exact Or.inr (le_trans (trimMessages_length_le _) (by omega))
    · exact Or.inr (trimPlusOne_le _ _)

theorem convOk_aiOnReply (convs : CMap) (r : ReplyCtx) (ev : AIEvent)
    (cache : Option Conversation) (now : Nat) (mr : Except ErrKind String)
    (ok : Bool) (k : String) (c : Conversation)
    (h : mapGet (aiOnReply convs r ev cache now mr ok).1 k = some c) :
    convOk convs c := by
  unfold aiOnReply at h
  simp only [] at h
  split at h
  · exact convOk_of_mapGet _ _ _ h
  · split at h
    · exact convOk_of_mapGet _ _ _ h
    · split at h
      · exact convOk_clearConversation _ _ _ _ h
      · split at h
        · exact convOk_of_mapGet _ _ _ h
        · exact convOk_aiReplyMain _ _ _ _ _ _ _ _ _ _ _ h

/-! ### Rate limiter lemmas -/

theorem inWindow_iff {W T t : Nat} : inWindow W T t = true ↔ T ≤ t + W ∧ t ≤ T := by
  simp [inWindow]

theorem rlRun_cons (W maxE : Nat) (s : List Nat) (c : Nat) (cs : List Nat) :
    rlRun W maxE s (c :: cs) =
      if (rlPurge W c s).length < maxE
      then c :: rlRun W maxE (rlPurge W c s ++ [c]) cs
      else rlRun W maxE s cs := by
  by_cases h : (rlPurge W c s).length < maxE <;> simp [rlRun, rlStep, h]

theorem rlRun_mem (W maxE : Nat) :
    ∀ (cs s : List Nat) (x : Nat), x ∈ rlRun W maxE s cs → x ∈ cs := by
  intro cs
  induction cs with
  | nil => intro s x hx; simp [rlRun] at hx
  | cons c cs ih =>
    intro s x hx
    rw [rlRun_cons] at hx
    by_cases h : (rlPurge W c s).length < maxE
    · rw [if_pos h] at hx
      rcases List.mem_cons.mp hx with h1 | h1
      · exact h1 ▸ List.mem_cons_self _ _
      · exact List.mem_cons_of_mem _ (ih _ _ h1)
    · rw [if_neg h] at hx
      exact List.mem_cons_of_mem _ (ih _ _ hx)

theorem winCount_cons (W T c : Nat) (l : List Nat) :
    winCount W T (c :: l) =
      (if inWindow W T c = true then 1 else 0) + winCount W T l := by
  by_cases h : inWindow W T c = true <;>
    simp [winCount, List.filter_cons, h, Nat.add_comm]

theorem winCount_append (W T : Nat) (l₁ l₂ : List Nat) :
    winCount W T (l₁ ++ l₂) = winCount W T l₁ + winCount W T l₂ := by
  simp [winCount, List.filter_append]

theorem winCount_le_length (W T : Nat) (l : List Nat) : winCount W T l ≤ l.length := by
  simpa [winCount] using List.length_filter_le (inWindow W T) l

theorem winCount_eq_zero_of_forall (W T : Nat) (l : List Nat)
    (h : ∀ x ∈ l, ¬ x ≤ T) : winCount W T l = 0 := by
  induction l with
  | nil => rfl
  | cons a l ih =>
    have ha : inWindow W T a = false := by
      rw [Bool.eq_false_iff]
      intro hcon
      exact h a (List.mem_cons_self a l) (inWindow_iff.mp hcon).2
    rw [winCount_cons, ha]
    simpa using ih (fun x hx => h x (List.mem_cons_of_mem _ hx))

theorem winCount_rlPurge (W T c : Nat) (hc : c ≤ T) (s : List Nat) :
    winCount W T (rlPurge W c s) = winCount W T s := by
  induction s with
  | nil => rfl
  | cons a s ih =>
    by_cases hk : c ≤ a + W
    · have h1 : rlPurge W c (a :: s) = a :: rlPurge W c s := by
        simp [rlPurge, List.filter_cons, hk]
      rw [h1, winCount_cons, winCount_cons, ih]
    · have hw : inWindow W T a = false := by
        rw [Bool.eq_false_iff]
        intro hcon
        exact hk (le_trans hc (inWindow_iff.mp hcon).1)
      have h1 : rlPurge W c (a :: s) = rlPurge W c s := by
        simp [rlPurge, List.filter_cons, hk]
      rw [h1, winCount_cons, hw, ih]
      simp

/-- Core sliding-window invariant of the modelled rate limiter: starting
from any window state `s`, the admissions produced by a nondecreasing run
of calls, counted inside any window of width `W` ending at `T`, together
with the surviving state entries, never exceed `max (winCount W T s) maxE`. -/
theorem rlRun_window_bound (W maxE T : Nat) :
    ∀ (cs s : List Nat), List.Sorted (· ≤ ·) cs →
      winCount W T (rlRun W maxE s cs) + winCount W T s ≤
        max (winCount W T s) maxE := by
  intro cs
  induction cs with
  | nil =>
    intro s _
    have h0 : winCount W T (rlRun W maxE s []) = 0 := rfl
    rw [h0, Nat.zero_add]
    exact le_max_left _ _
  | cons c cs ih =>
    intro s hsort
    have hc : ∀ b ∈ cs, c ≤ b := (List.sorted_cons.mp hsort).1
    have hs : List.Sorted (· ≤ ·) cs := (List.sorted_cons.mp hsort).2
    rw [rlRun_cons]
    by_cases hT : c ≤ T
    · by_cases hadm : (rlPurge W c s).length < maxE
      · rw [if_pos hadm]
        have f1 : winCount W T (rlPurge W c s) = winCount W T s :=
          winCount_rlPurge W T c hT s
        have f3 : winCount W T (rlPurge W c s) ≤ (rlPurge W c s).length :=
          winCount_le_length W T (rlPurge W c s)
        have f2 : winCount W T (rlPurge W c s ++ [c]) =
            winCount W T (rlPurge W c s) + (if inWindow W T c = true then 1 else 0) := by
          rw [winCount_append]
          congr 1
          by_cases h : inWindow W T c = true <;> simp [winCount, List.filter_cons, h]
        have hind : (if inWindow W T c = true then 1 else 0) ≤ 1 := by
          split <;> omega
        have ihh := ih (rlPurge W c s ++ [c]) hs
        have hmax : max (winCount W T (rlPurge W c s ++ [c])) maxE = maxE := by
          apply Nat.max_eq_right
          omega
        rw [hmax] at ihh
        rw [winCount_cons]
        have hle : maxE ≤ max (winCount W T s) maxE := le_max_right _ _
        omega
      · rw [if_neg hadm]
        exact ih s hs
    · by_cases hadm : (rlPurge W c s).length < maxE
      · rw [if_pos hadm]
        have h0 : winCount W T (c :: rlRun W maxE (rlPurge W c s ++ [c]) cs) = 0 := by
          apply winCount_eq_zero_of_forall
          intro x hx
          rcases List.mem_cons.mp hx with rfl | hx'
          · exact hT
          · have hx2 := rlRun_mem W maxE cs _ x hx'
            have hx3 := hc x hx2
            omega
        rw [h0, Nat.zero_add]
        exact le_max_left _ _
      · rw [if_neg hadm]
        have h0 : winCount W T (rlRun W maxE s cs) = 0 := by
          apply winCount_eq_zero_of_forall
          intro x hx
          have hx2 := rlRun_mem W maxE cs _ x hx
          have hx3 := hc x hx2
          omega
        rw [h0, Nat.zero_add]
        exact le_max_left _ _

/-! # Claims -/

/-- C2: for every identity, the rate limiter admits at most `maxE` events
inside any sliding window of width `W` ending at `T`: over any
nondecreasing sequence of admission calls, the admitted timestamps lying
in the window number at most `maxE`; and a rejected call returns without
mutating the identity's window state. -/
theorem claim_C2_sliding_window (W maxE T : Nat) (cs : List Nat)
    (hsorted : List.Sorted (· ≤ ·) cs) :
    winCount W T (rlRun W maxE [] cs) ≤ maxE ∧
      ∀ ts now, (rlStep W maxE ts now).1 = false → (rlStep W maxE ts now).2 = ts := by
  constructor
  · have h := rlRun_window_bound W maxE T cs [] hsorted
    have h0 : winCount W T ([] : List Nat) = 0 := rfl
    rw [h0, Nat.add_zero, Nat.zero_max] at h
    exact h
  · intro ts now h
    by_cases hp : (rlPurge W now ts).length < maxE
    · simp [rlStep, hp] at h
    · simp [rlStep, hp]

/-- C2 witness: window 5, cap 2, calls at times 0, 1, 2 — the third call is
rejected and at most two admissions lie in the window ending at 2. -/
theorem claim_C2_sliding_window_witness :
    List.Sorted (· ≤ ·) [0, 1, 2] ∧
      (winCount 5 2 (rlRun 5 2 [] [0, 1, 2]) ≤ 2 ∧
        ∀ ts now, (rlStep 5 2 ts now).1 = false → (rlStep 5 2 ts now).2 = ts) :=
  ⟨by decide, claim_C2_sliding_window 5 2 2 [0, 1, 2] (by decide)⟩

/-- C3: the security check is evaluated before the rate-limit check (the
dispatch trace starts with the security check, and a rate check appears
only when security passed), and when either check denies the event the
message handler is never invoked and no outbound send/reply/react/typing
call is made for that event. -/
theorem claim_C3_gate_order_and_block (sec rate : Bool) (hActs : List AIAction)
    (hErr : Option String) (st : Stats) (hdeny : sec = false ∨ rate = false) :
    (handleMessage sec rate hActs hErr st).2.head? = some BMEffect.securityCheck ∧
    (BMEffect.rateCheck ∈ (handleMessage sec rate hActs hErr st).2 → sec = true) ∧
    BMEffect.invokeHandler ∉ (handleMessage sec rate hActs hErr st).2 ∧
    ∀ e ∈ (handleMessage sec rate hActs hErr st).2, isOutbound e = false := by
  rcases hdeny with h | h
  · subst h
    simp [handleMessage, isOutbound]
  · subst h
    cases sec <;> simp [handleMessage, isOutbound]

/-- C3 witness: a concrete security denial — the handler is not invoked. -/
theorem claim_C3_witness :
    (false = false ∨ true = false) ∧
      BMEffect.invokeHandler ∉ (handleMessage false true [] none ⟨0, 0, 0⟩).2 :=
  ⟨Or.inl rfl,
   (claim_C3_gate_order_and_block false true [] none ⟨0, 0, 0⟩ (Or.inl rfl)).2.2.1⟩

/-- C4 counterexample: a message denied by the security check still
increments the `messagesProcessed` aggregate counter (from 0 to 1), because
`handleMessage` increments it before the checks run — so "no aggregate
counter is incremented for a denied event" is false on the code. -/
theorem claim_C4_counterexample :
    (handleMessage false true [] none ⟨0, 0, 0⟩).1.messagesProcessed ≠ 0 := by
  decide

/-- C4 (amended): for a denied event, `commandsExecuted` and `errors` are
unchanged and the only effects are the check evaluations plus a single
security or rate-limit log entry; `messagesProcessed`, however, is
incremented for every inbound message, denied ones included. -/
theorem claim_C4_amended (sec rate : Bool) (hActs : List AIAction)
    (hErr : Option String) (st : Stats) (hdeny : sec = false ∨ rate = false) :
    (handleMessage sec rate hActs hErr st).1.commandsExecuted = st.commandsExecuted ∧
    (handleMessage sec rate hActs hErr st).1.errors = st.errors ∧
    (handleMessage sec rate hActs hErr st).1.messagesProcessed = st.messagesProcessed + 1 ∧
    ((handleMessage sec rate hActs hErr st).2 =
        [BMEffect.securityCheck, BMEffect.logSecurity] ∨
      (handleMessage sec rate hActs hErr st).2 =
        [BMEffect.securityCheck, BMEffect.rateCheck, BMEffect.logRateLimit]) := by
  rcases hdeny with h | h
  · subst h
    simp [handleMessage]
  · subst h
    cases sec <;> simp [handleMessage]

/-- C4 amended witness: concrete denied event — `errors` stays 0. -/
theorem claim_C4_amended_witness :
    (false = false ∨ true = false) ∧
      (handleMessage false true [] none ⟨0, 0, 0⟩).1.errors = 0 :=
  ⟨Or.inl rfl,
   (claim_C4_amended false true [] none ⟨0, 0, 0⟩ (Or.inl rfl)).2.1⟩

/-- C5: a handler exception is caught at the dispatch boundary —
`handleMessage` returns normally with the value below (so nothing
propagates to the event-stream listener), incrementing `errors` by exactly
one and appending an error log after the actions the handler managed to
perform. -/
theorem claim_C5_handler_error_caught (hActs : List AIAction) (e : String) (st : Stats) :
    handleMessage true true hActs (some e) st =
      ({ st with messagesProcessed := st.messagesProcessed + 1,
                 errors := st.errors + 1 },
       [BMEffect.securityCheck, BMEffect.rateCheck, BMEffect.invokeHandler] ++
         hActs.map BMEffect.out ++ [BMEffect.logError]) := by
  simp [handleMessage]

/-- C8: `cacheSet` never throws: every branch returns a plain value —
`false` with a warning log when Redis is unavailable, `false` with an
error log when the write rejects, and `result == "OK"` on a completed
write; the in-memory session write does not depend on the mirror — a
`mapSet` always stores its value. -/
theorem claim_C8_cacheSet_total (redis : Option (Except String String)) :
    (∃ b, (cacheSetE redis).1 = Except.ok b) ∧
    (redis = none →
      cacheSetE redis = (Except.ok false, [DBLog.warnRedisUnavailable])) ∧
    (∀ e, redis = some (Except.error e) →
      cacheSetE redis = (Except.ok false, [DBLog.logCacheError])) ∧
    (∀ v, redis = some (Except.ok v) →
      (cacheSetE redis).1 = Except.ok (v == "OK")) ∧
    (∀ m k v, mapGet (mapSet m k v) k = some v) := by
  refine ⟨?_, ?_, ?_, ?_, fun m k v => mapGet_mapSet_self m k v⟩ <;>
    cases redis with
    | none => simp [cacheSetE]
    | some res => cases res <;> simp [cacheSetE]

/-- C8 witness: a rejected Redis write yields `ok false` plus an error log. -/
theorem claim_C8_witness :
    cacheSetE (some (Except.error "boom")) =
      (Except.ok false, [DBLog.logCacheError]) :=
  (claim_C8_cacheSet_total (some (Except.error "boom"))).2.2.1 "boom" rfl

/-- C10: a reply whose sender differs from the author recorded in the
continuation returns silently: no action is emitted and the conversation
store is left untouched. -/
theorem claim_C10_foreign_reply (convs : CMap) (r : ReplyCtx) (ev : AIEvent)
    (cache : Option Conversation) (now : Nat) (mr : Except ErrKind String)
    (ok : Bool) (h : ev.senderID ≠ r.author) :
    aiOnReply convs r ev cache now mr ok = (convs, []) := by
  unfold aiOnReply
  rw [if_pos h]

/-- C10 witness: a foreign sender's reply at a concrete input does nothing. -/
theorem claim_C10_witness :
    aiOnReply [] sampleReplyCtx ⟨"other", "t", "m2", "hi"⟩ none 0
        (Except.ok "x") true = ([], []) :=
  claim_C10_foreign_reply [] sampleReplyCtx ⟨"other", "t", "m2", "hi"⟩ none 0
    (Except.ok "x") true (by decide)

/-- C9: in every reachable orchestrator state, `isReady()` returns a
boolean (never the `null` the bare `&&` chain would yield on a missing
transport handle), and it is `true` exactly when the bot is running and
the transport is connected. -/
theorem claim_C9_isReady (es : List BMEvent) :
    ∃ b, isReady (bmRun es) = JSVal.bool b ∧
      (b = true ↔ (bmRun es).isRunning = true ∧
        ∃ api, (bmRun es).facebookAPI = some api ∧ api.connected = true) := by
  have hinv : ∀ (l : List BMEvent) (st : BMState),
      (st.isRunning = true → st.facebookAPI ≠ none) →
      ((l.foldl bmStep st).isRunning = true → (l.foldl bmStep st).facebookAPI ≠ none) := by
    intro l
    induction l with
    | nil => intro st h; exact h
    | cons e l ih =>
      intro st h
      simp only [List.foldl_cons]
      apply ih
      cases e with
      | initOk api => intro _; simp [bmStep]
      | initFail => exact h
      | startOk =>
        cases hapi : st.facebookAPI with
        | none =>
          intro hr
          simp only [bmStep, hapi] at hr
          exact absurd hapi (h hr)
        | some api =>
          intro _
          simp only [bmStep, hapi]
          split <;> simp [hapi]
      | startFail => exact h
      | stopBot =>
        intro hr
        simp [bmStep] at hr
      | setConnected b =>
        intro hr
        simp only [bmStep] at hr ⊢
        have hne := h hr
        cases hapi : st.facebookAPI with
        | none => exact absurd hapi hne
        | some api => simp [hapi]
  have hI : (bmRun es).isRunning = true → (bmRun es).facebookAPI ≠ none :=
    hinv es bmInit (by intro hx; simp [bmInit] at hx)
  cases hrun : (bmRun es).isRunning with
  | false =>
    refine ⟨false, ?_, ?_⟩
    · simp [isReady, hrun]
    · simp [hrun]
  | true =>
    cases hapi : (bmRun es).facebookAPI with
    | none => exact absurd hapi (hI hrun)
    | some api =>
      refine ⟨api.connected, ?_, ?_⟩
      · simp [isReady, hrun, hapi]
      · constructor
        · intro hc
          exact ⟨rfl, api, rfl, hc⟩
        · rintro ⟨_, api', hsome, hc⟩
          injection hsome with hh
          rw [hh]
          exact hc

/-- C1 counterexample: from a session holding 19 turns (a length that
recurs in normal operation: the trim leaves 10, each interaction adds 2
and one adds 1 after a trim), one successful `onStart` interaction stores
a session of 21 turns — the assistant-turn append is not trimmed, so the
20-turn cap enforced at the user-turn append is exceeded right after the
assistant append. -/
theorem claim_C1_counterexample :
    (mapGet (aiOnStart (some "k") none [("t_u", sampleConv19)] sampleEvent
        ["hello"] 5 (Except.ok "pong") true).1 "t_u").map
      (fun c => c.messages.length) = some 21 ∧ ¬ (21 ≤ 20) := by
  decide

/-- C1 (amended): the user-turn append in `onStart`/`onReply` trims the
turn sequence to at most 20 turns, removing oldest first (what is kept is
a suffix of the pushed sequence); the assistant-turn append is untrimmed,
so a stored session can reach, but never exceeds, 21 turns — every
conversation stored by `onStart` or `onReply` either carries the turn
sequence of an already-stored conversation or holds at most 21 turns. -/
theorem claim_C1_amended :
    (∀ ms t, (trimMessages (ms ++ [t])).length ≤ 20 ∧
       trimMessages (ms ++ [t]) <:+ (ms ++ [t])) ∧
    (∀ apiKey cfg convs ev args now mr ok k c,
       mapGet (aiOnStart apiKey cfg convs ev args now mr ok).1 k = some c →
         convOk convs c) ∧
    (∀ convs r ev cache now mr ok k c,
       mapGet (aiOnReply convs r ev cache now mr ok).1 k = some c →
         convOk convs c) :=
  ⟨fun ms t => ⟨trimMessages_length_le (ms ++ [t]), trimMessages_suffix (ms ++ [t])⟩,
   fun _ _ _ _ _ _ _ _ _ _ h => convOk_aiOnStart _ _ _ _ _ _ _ _ _ _ h,
   fun _ _ _ _ _ _ _ _ _ h => convOk_aiOnReply _ _ _ _ _ _ _ _ _ h⟩

/-- C1 amended witness: the concrete 19-turn run stores the 21-turn
session below, which satisfies the audit predicate. -/
theorem claim_C1_amended_witness :
    mapGet (aiOnStart (some "k") none [("t_u", sampleConv19)] sampleEvent
        ["hello"] 5 (Except.ok "pong") true).1 "t_u" = some sampleConv21 ∧
      convOk [("t_u", sampleConv19)] sampleConv21 :=
  ⟨by decide,
   claim_C1_amended.2.1 (some "k") none [("t_u", sampleConv19)] sampleEvent
     ["hello"] 5 (Except.ok "pong") true "t_u" sampleConv21 (by decide)⟩

/-- C6 counterexample: at a concrete quota-failure input the user does get
the quota-specific message and no assistant turn is appended, but the
command catches the error itself and returns normally — so the dispatch
pipeline sees no exception and the `errors` counter stays 0 instead of
being incremented, falsifying the claim's "errors counter is incremented"
conjunct. -/
theorem claim_C6_counterexample :
    (aiOnStart (some "k") none [] sampleEvent ["hello"] 0
        (Except.error ErrKind.insufficientQuota) true).2 =
      [AIAction.typing "t", AIAction.modelCall "gpt-3.5-turbo",
       AIAction.logError, AIAction.reply quotaMsg] ∧
    (handleMessage true true
        (aiOnStart (some "k") none [] sampleEvent ["hello"] 0
          (Except.error ErrKind.insufficientQuota) true).2 none ⟨0, 0, 0⟩).1.errors = 0 ∧
    ¬ ((handleMessage true true
        (aiOnStart (some "k") none [] sampleEvent ["hello"] 0
          (Except.error ErrKind.insufficientQuota) true).2 none ⟨0, 0, 0⟩).1.errors
        = 0 + 1) := by
  decide

/-- C6 (amended): when the model call fails with the quota kind on the chat
path, the user receives exactly the quota-specific message, no assistant
turn is appended (every assistant turn stored afterwards was already in
the store under the same key), and the command returns normally, so the
pipeline's `errors` counter is NOT incremented. -/
theorem claim_C6_amended (apiKey cfg : Option String) (convs : CMap) (ev : AIEvent)
    (args : List String) (now : Nat) (ok : Bool)
    (hkey : ¬ apiKey.getD "" = "")
    (hsub : aiSubcommand convs (ev.threadID ++ "_" ++ ev.senderID) args = none)
    (hui : ¬ jsTrim (String.intercalate " " args) = "") :
    (∃ m, (aiOnStart apiKey cfg convs ev args now
        (Except.error ErrKind.insufficientQuota) ok).2 =
      [AIAction.typing ev.threadID, AIAction.modelCall m, AIAction.logError,
       AIAction.reply quotaMsg]) ∧
    (∀ k c, mapGet (aiOnStart apiKey cfg convs ev args now
          (Except.error ErrKind.insufficientQuota) ok).1 k = some c →
        ∀ t ∈ c.messages, t.role = Role.assistant →
          ∃ c₀, mapGet convs k = some c₀ ∧ t ∈ c₀.messages) ∧
    (∀ st : Stats, (handleMessage true true
        (aiOnStart apiKey cfg convs ev args now
          (Except.error ErrKind.insufficientQuota) ok).2 none st).1.errors
        = st.errors) := by
  have hrun : aiOnStart apiKey cfg convs ev args now
      (Except.error ErrKind.insufficientQuota) ok =
      aiOnStartMain cfg convs ev (ev.threadID ++ "_" ++ ev.senderID)
        (jsTrim (String.intercalate " " args)) now
        (Except.error ErrKind.insufficientQuota) ok := by
    unfold aiOnStart
    rw [if_neg hkey]
    simp only []
    rw [hsub]
    simp only []
    rw [if_neg hui]
  rw [hrun]
  refine ⟨?_, ?_, ?_⟩
  · unfold aiOnStartMain
    simp only []
    exact ⟨_, rfl⟩
  · intro k c hkc t ht hrole
    unfold aiOnStartMain at hkc
    simp only [] at hkc
    by_cases hk : k = ev.threadID ++ "_" ++ ev.senderID
    · subst hk
      rw [mapGet_mapSet_self] at hkc
      injection hkc with hc
      subst hc
      have ht2 := (trimMessages_suffix _).subset ht
      rcases List.mem_append.mp ht2 with h3 | h3
      · cases hg : mapGet convs (ev.threadID ++ "_" ++ ev.senderID) with
        | some c0 =>
          rw [hg] at h3
          simp only [] at h3
          exact ⟨c0, rfl, h3⟩
        | none =>
          rw [hg] at h3
          simp only [] at h3
          simp at h3
      · simp only [List.mem_singleton] at h3
        rw [h3] at hrole
        simp at hrole
    · rw [mapGet_mapSet_ne convs _ k _ hk] at hkc
      exact ⟨c, hkc, ht⟩
  · intro st
    simp [handleMessage]

/-- C6 amended witness: at a concrete quota-failure run the counters are
untouched. -/
theorem claim_C6_amended_witness :
    (handleMessage true true
        (aiOnStart (some "k") none [] sampleEvent ["hello"] 0
          (Except.error ErrKind.insufficientQuota) true).2 none ⟨3, 4, 5⟩).1.errors = 5 :=
  (claim_C6_amended (some "k") none [] sampleEvent ["hello"] 0 true
      (by decide) (by decide) (by decide)).2.2 ⟨3, 4, 5⟩

/-- C7: the `onReply` conversation lookup is memory-first: on a memory hit
the cache is never read; on a memory miss with a cache hit the cache is
read, the in-memory map is repopulated under the conversation key and the
continuation proceeds with the cached session (its model is the one
called); when both sources miss, the handler replies "conversation not
found", makes no model call and leaves the store unchanged. -/
theorem claim_C7_lookup (convs : CMap) (r : ReplyCtx) (ev : AIEvent)
    (cache : Option Conversation) (now : Nat) (mr : Except ErrKind String) (ok : Bool)
    (hauth : ev.senderID = r.author)
    (hui : ¬ jsTrim ev.body = "")
    (hclear : ¬ jsToLower (jsTrim ev.body) = "clear") :
    (∀ conv, mapGet convs r.conversationId = some conv →
       ∀ key, AIAction.cacheRead key ∉ (aiOnReply convs r ev cache now mr ok).2) ∧
    (∀ conv, mapGet convs r.conversationId = none → cache = some conv →
       AIAction.cacheRead ("ai_conversation_" ++ r.conversationId) ∈
         (aiOnReply convs r ev cache now mr ok).2 ∧
       AIAction.modelCall conv.model ∈ (aiOnReply convs r ev cache now mr ok).2 ∧
       ∃ c', mapGet (aiOnReply convs r ev cache now mr ok).1 r.conversationId = some c' ∧
         c'.model = conv.model ∧ c'.systemPrompt = conv.systemPrompt) ∧
    (mapGet convs r.conversationId = none → cache = none →
       aiOnReply convs r ev cache now mr ok =
         (convs, [AIAction.typing ev.threadID,
                  AIAction.cacheRead ("ai_conversation_" ++ r.conversationId),
                  AIAction.reply notFoundMsg])) := by
  have hne : ¬ ev.senderID ≠ r.author := fun hx => hx hauth
  have hrun : aiOnReply convs r ev cache now mr ok =
      match aiLookup convs r.conversationId cache with
      | none => (convs, [AIAction.typing ev.threadID,
                         AIAction.cacheRead ("ai_conversation_" ++ r.conversationId),
                         AIAction.reply notFoundMsg])
      | some (conv, fromCache) =>
          aiReplyMain convs r.conversationId ev conv fromCache
            (jsTrim ev.body) now mr ok := by
    unfold aiOnReply
    rw [if_neg hne]
    simp only []
    rw [if_neg hui, if_neg hclear]
  refine ⟨?_, ?_, ?_⟩
  · intro conv hconv key
    have hl : aiLookup convs r.conversationId cache = some (conv, false) := by
      simp [aiLookup, hconv]
    rw [hrun, hl]
    simp only []
    unfold aiReplyMain
    simp only []
    cases mr <;> cases ok <;> simp
  · intro conv hconv hcache
    have hl : aiLookup convs r.conversationId cache = some (conv, true) := by
      simp [aiLookup, hconv, hcache]
    rw [hrun, hl]
    simp only []
    unfold aiReplyMain
    simp only []
    cases mr with
    | error e =>
      simp only []
      refine ⟨?_, ?_, ?_⟩
      · simp
      · simp
      · exact ⟨_, mapGet_mapSet_self _ _ _, rfl, rfl⟩
    | ok text =>
      simp only []
      refine ⟨?_, ?_, ?_⟩
      · cases ok <;> simp
      · cases ok <;> simp
      · exact ⟨_, mapGet_mapSet_self _ _ _, rfl, rfl⟩
  · intro hconv hcache
    have hl : aiLookup convs r.conversationId cache = none := by
      simp [aiLookup, hconv, hcache]
    rw [hrun, hl]

/-- C7 witness: a concrete double miss yields the not-found reply and an
unchanged store. -/
theorem claim_C7_witness :
    aiOnReply [] sampleReplyCtx sampleEvent none 0 (Except.ok "x") true =
      ([], [AIAction.typing "t", AIAction.cacheRead "ai_conversation_t_u",
            AIAction.reply notFoundMsg]) :=
  (claim_C7_lookup [] sampleReplyCtx sampleEvent none 0 (Except.ok "x") true
      (by decide) (by decide) (by decide)).2.2 rfl rfl

end SecretBot

